import Mathlib

/-!
Shallow embedding of the proxy-scraper repository (three Go program variants:
deep.go, the "gemini" single-target checker, and the ProxyChecker variant)
together with proofs of the spec claims.  Network I/O is abstracted by passing
the outcome of each HTTP request as an explicit argument (a probe function, a
fetch-attempt function, or a response value); everything else follows the Go
source line by line.
-/

/-- The outcome of one HTTP request issued by the program: either a transport
error (connection failure, timeout, or a failed body read) or a response with
its status code and body. -/
inductive HttpOutcome where
  | connErr
  | ok (status : Nat) (body : String)
deriving DecidableEq

/-- Counts the successful probes while iterating over the target list, as the
`for _, target := range targets { if ... { successCount++ } }` loops do. -/
def successCount (probe : String → Bool) : List String → Nat
  | [] => 0
  | t :: ts => (if probe t then 1 else 0) + successCount probe ts

/-- Generic first-occurrence deduplication with an explicit seen-set,
embedding the Go pattern `seen := make(map[string]bool); for _, x := range l {
if !seen[key(x)] { seen[key(x)] = true; result = append(result, x) } }`.
The Go map of admitted keys is modelled as the list `seen` (membership is all
the code ever asks of it). -/
def dedupByAux {α κ : Type} [DecidableEq κ] (key : α → κ) (seen : List κ) :
    List α → List α
  | [] => []
  | x :: rest =>
      if key x ∈ seen then dedupByAux key seen rest
      else x :: dedupByAux key (key x :: seen) rest

namespace Deep

/-- deep.go constant `maxConcurrentChecks = 200`. -/
def maxConcurrentChecks : Nat := 200

/-- deep.go `deduplicateProxies`: admit each proxy string the first time it is
seen. -/
def deduplicateProxies (proxies : List String) : List String :=
  dedupByAux id [] proxies

/-- The three fixed probe targets of deep.go `checkProxy`. -/
def checkTargets : List String :=
  ["http://example.com", "http://httpbin.org/ip", "http://google.com"]

/-- deep.go `checkProxy`, with the network abstracted: `probe t` is the result
of `checkWithClient(client, t)` for target `t`.  The proxy is declared alive
iff at least 2 of the 3 targets succeed (`return successCount >= 2`). -/
def checkProxy (probe : String → Bool) : Bool :=
  decide (2 ≤ successCount probe checkTargets)

/-- deep.go `checkWithClient`, as a function of the request outcome: any error
yields false, otherwise `resp.StatusCode >= 200 && resp.StatusCode < 400`. -/
def checkWithClient : HttpOutcome → Bool
  | .connErr => false
  | .ok s _ => decide (200 ≤ s) && decide (s < 400)

/-- deep.go `checkProxiesConcurrently`: the workers append exactly those
proxies for which `checkProxy` returned true to `goodProxies` (completion
order is scheduler-dependent; the model uses input order, which is all the
counting/partition claims depend on). -/
def checkProxiesConcurrently (check : String → Bool) (proxies : List String) :
    List String :=
  proxies.filter check

/-- deep.go `checkProxiesConcurrently` with the scheduler made explicit: up
to 200 goroutines check concurrently and append to `goodProxies` as each one
finishes, so the appends happen in a completion order chosen by the scheduler
— an arbitrary permutation of the admitted candidates.  Given that completion
order, the collected live list is its filter by the verdict. -/
def collectByCompletion (check : String → Bool) (completion : List String) :
    List String :=
  completion.filter check

/-- deep.go `saveProxiesToFile`, as a transformer of the output file's state
(`none` = file does not exist).  With an empty list it logs and returns before
any write; otherwise it writes the newline-joined list (create-or-truncate). -/
def saveProxiesToFile (proxies : List String) (existing : Option String) :
    Option String :=
  if proxies.length = 0 then existing
  else some (String.intercalate "\n" proxies)

/-- Exit behaviour of a program run: a normal return (process status 0) or a
`log.Fatal` (process status 1). -/
inductive ExitOutcome where
  | normal
  | fatalExit (msg : String)
deriving DecidableEq

/-- Whether an exit outcome is a hard error (non-zero completion status). -/
def isHardError : ExitOutcome → Bool
  | .normal => false
  | .fatalExit _ => true

/-- Observable result of a deep.go run: how the process exited, whether the
checking phase ran, and the final state of good_proxies.txt. -/
structure RunResult where
  exit : ExitOutcome
  checkedAny : Bool
  fileAfter : Option String
deriving DecidableEq

/-- deep.go `main` after scraping produced `allProxies` (already
deduplicated): on an empty harvest it logs and plain-returns; otherwise it
checks all proxies and saves the good ones. -/
def mainRun (allProxies : List String) (check : String → Bool)
    (existing : Option String) : RunResult :=
  if allProxies.length = 0 then ⟨.normal, false, existing⟩
  else
    let good := checkProxiesConcurrently check allProxies
    ⟨.normal, true, saveProxiesToFile good existing⟩

end Deep

namespace Gemini

/-- part_000 constant `workerCount = 150`. -/
def workerCount : Nat := 150

/-- part_000 `checkProxyWorker` acceptance test for one proxy, as a function
of the single GET's outcome: an error skips the proxy, and it is forwarded to
`liveProxiesChan` iff `resp.StatusCode == http.StatusOK` (200). -/
def probeAccepts : HttpOutcome → Bool
  | .connErr => false
  | .ok s _ => s == 200

end Gemini

namespace PC

/-- The worker-pool size `100` that ProxyChecker's `main` passes to
`NewProxyChecker(10*time.Second, 100)`. -/
def maxWorkers : Nat := 100

/-- ProxyChecker's `Proxy` record. -/
structure Proxy where
  IP : String
  Port : String
  Full : String
deriving DecidableEq

/-- ProxyChecker `removeDuplicateProxies`: admit each proxy the first time its
`Full` address is seen. -/
def removeDuplicateProxies (proxies : List Proxy) : List Proxy :=
  dedupByAux Proxy.Full [] proxies

/-- The two fixed test URLs of `ProxyChecker.checkProxy`. -/
def testURLs : List String :=
  ["http://httpbin.org/ip", "http://icanhazip.com"]

/-- `ProxyChecker.checkProxy`, with the network abstracted: `probe u` is the
result of `testProxyConnection(proxy, u)`.  Valid iff at least 1 of the 2
tests succeeds (`return successCount >= 1`). -/
def checkProxy (probe : String → Bool) : Bool :=
  decide (1 ≤ successCount probe testURLs)

/-- Go's `strings.TrimSpace`, modelled on the character list: drop leading
and trailing whitespace. -/
def trimSpace (s : String) : List Char :=
  ((s.toList.dropWhile Char.isWhitespace).reverse.dropWhile
      Char.isWhitespace).reverse

/-- `ProxyChecker.testProxyConnection` as a function of the request outcome
(`connErr` also covers a failed `io.ReadAll`): it requires
`resp.StatusCode == 200` and a non-empty `strings.TrimSpace` of the body. -/
def testProxyConnection : HttpOutcome → Bool
  | .connErr => false
  | .ok s b => s == 200 && decide (0 < (trimSpace b).length)

/-- Whether one fetch attempt of `scrapeProxiesFromURL` breaks the retry loop:
`err == nil && resp.StatusCode == 200`. -/
def fetchOk : HttpOutcome → Bool
  | .connErr => false
  | .ok s _ => s == 200

/-- The maximum number of fetch attempts in `scrapeProxiesFromURL`
(`for i := 0; i < 3; i++`). -/
def retryAttempts : Nat := 3

/-- The backoff slept after failed attempt `i`:
`time.Sleep(time.Duration(i+1) * time.Second)`, in seconds. -/
def backoffDelay (i : Nat) : Nat := i + 1

/-- The response/error pair held after the retry loop of
`scrapeProxiesFromURL`: the first of the three attempts that returned status
200 without error, or else the third (last) attempt. -/
def finalAttempt (att : Nat → HttpOutcome) : HttpOutcome :=
  if fetchOk (att 0) then att 0
  else if fetchOk (att 1) then att 1
  else att 2

/-- The errors `scrapeProxiesFromURL` can return. -/
inductive ScrapeError where
  | fetchFailed
  | httpStatus (code : Nat)
deriving DecidableEq

/-- `scrapeProxiesFromURL`, with the network abstracted: `att i` is the
outcome of the i-th `client.Get(url)`.  After the retry loop it fails on a
remaining transport error, fails on a non-200 status, and otherwise parses the
body (`parse` stands for `parseProxies`). -/
def scrapeProxiesFromURL (parse : String → List Proxy)
    (att : Nat → HttpOutcome) : Except ScrapeError (List Proxy) :=
  match finalAttempt att with
  | .connErr => .error .fetchFailed
  | .ok s body => if s ≠ 200 then .error (.httpStatus s) else .ok (parse body)

/-- Numeric value of a decimal digit character. -/
def digitVal (c : Char) : Nat := c.toNat - 48

/-- Numeric value of a decimal digit string. -/
def decValue (s : String) : Nat :=
  s.toList.foldl (fun a c => a * 10 + digitVal c) 0

/-- ProxyChecker `isValidPort`: rejects the empty string and strings longer
than 5, then requires every character to be a decimal digit.  (Its comment
says "Port harus antara 1-65535"; no range check is performed.) -/
def isValidPort (port : String) : Bool :=
  if port.length = 0 || port.length > 5 then false
  else port.toList.all fun c => decide ('0' ≤ c) && decide (c ≤ '9')

/-- Split a character list on the dot separator (model of splitting a
dotted-quad string into its fields). -/
def splitOnDot : List Char → List (List Char)
  | [] => [[]]
  | c :: rest =>
      let r := splitOnDot rest
      if c == '.' then [] :: r
      else (c :: r.headD []) :: r.tail

/-- One dotted-quad field as accepted by Go's `net.ParseIP` (≥ 1.17): one to
three decimal digits, no leading zero, value at most 255. -/
def validOctet (cs : List Char) : Bool :=
  decide (1 ≤ cs.length) && decide (cs.length ≤ 3)
    && cs.all (fun c => decide ('0' ≤ c) && decide (c ≤ '9'))
    && (decide (cs.length = 1) || !(cs.headD '0' == '0'))
    && decide (cs.foldl (fun a c => a * 10 + digitVal c) 0 ≤ 255)

/-- ProxyChecker `isValidIP` = `net.ParseIP(ip) != nil`, modelled on the
dotted-quad IPv4 path (the only shape the extraction regex can produce):
four fields, each a valid octet. -/
def isValidIP (ip : String) : Bool :=
  let fields := splitOnDot ip.toList
  fields.length == 4 && fields.all validOctet

/-- ProxyChecker `parseProxies` after the regex step: the regex
`(\d{1,3}\.\d{1,3}\.\d{1,3}\.\d{1,3}):(\d{1,5})` is the unmodelled extraction
collaborator, so the function takes its submatch list (ip, port) directly;
each match passing `isValidIP` and `isValidPort` becomes a `Proxy` with
`Full = ip ++ ":" ++ port`, all others are silently discarded. -/
def parseProxies (matchList : List (String × String)) : List Proxy :=
  matchList.filterMap fun m =>
    if isValidIP m.1 && isValidPort m.2 then
      some ⟨m.1, m.2, m.1 ++ ":" ++ m.2⟩
    else none

/-- One `ProxyChecker.worker` draining the jobs channel sequentially: each
proxy is appended to exactly one of (validProxies, invalidProxies) according
to `checkProxy`. -/
def workerRun (check : Proxy → Bool) :
    List Proxy → List Proxy × List Proxy → List Proxy × List Proxy
  | [], acc => acc
  | j :: rest, acc =>
      if check j then workerRun check rest (acc.1 ++ [j], acc.2)
      else workerRun check rest (acc.1, acc.2 ++ [j])

/-- `ProxyChecker.validateProxies`: all jobs are processed starting from empty
valid/invalid lists (the workers share the two lists under a mutex; the model
serialises their appends). -/
def validateProxies (check : Proxy → Bool) (jobs : List Proxy) :
    List Proxy × List Proxy :=
  workerRun check jobs ([], [])

/-- Observable result of a ProxyChecker `main` run: how the process exited,
whether validation ran, and the two output files' contents (`none` = never
written). -/
structure RunResult where
  exit : Deep.ExitOutcome
  checkedAny : Bool
  validOut : Option (List Proxy)
  invalidOut : Option (List Proxy)
deriving DecidableEq

/-- ProxyChecker `main` after scraping produced `allProxies` (already
deduplicated): an empty harvest hits
`log.Fatal("❌ Tidak ada proxy yang berhasil di-scrape")` (non-zero exit);
otherwise every proxy is validated and both result files are written. -/
def mainRun (allProxies : List Proxy) (check : Proxy → Bool) : RunResult :=
  if allProxies.length = 0 then
    ⟨.fatalExit "Tidak ada proxy yang berhasil di-scrape", false, none, none⟩
  else
    let r := validateProxies check allProxies
    ⟨.normal, true, some r.1, some r.2⟩

end PC

/-- State of the validation stage's concurrency bookkeeping: how many
candidates still wait for a slot, how many probe checks hold a slot right now,
and how many have finished. -/
structure PoolState where
  waiting : Nat
  running : Nat
  finished : Nat
deriving DecidableEq

/-- One scheduler step of the bounded pool with `W` slots.  `acquire` models a
goroutine passing the admission point (`sem <- struct{}{}` on a channel of
capacity `W`, or an idle worker of a fixed pool of `W` picking up a job):
it is only enabled while fewer than `W` checks run.  `release` models a check
finishing (`<-sem`, or the worker becoming idle). -/
inductive PoolStep (W : Nat) : PoolState → PoolState → Prop where
  | acquire (w r f : Nat) : r < W → PoolStep W ⟨w + 1, r, f⟩ ⟨w, r + 1, f⟩
  | release (w r f : Nat) : PoolStep W ⟨w, r + 1, f⟩ ⟨w, r, f + 1⟩

/-- States reachable from the start of a run with `N` pending candidates and
no check in flight, under any interleaving of pool steps. -/
inductive PoolReachable (W N : Nat) : PoolState → Prop where
  | init : PoolReachable W N ⟨N, 0, 0⟩
  | step {s t : PoolState} :
      PoolReachable W N s → PoolStep W s t → PoolReachable W N t

/-- Spec-side definition for C10 (the claim's words, to be compared with the
source's `deduplicateProxies`): keep an input element iff it does not occur
among the strictly earlier input elements, i.e. keep exactly the first
occurrence of each distinct address, in input order. -/
def firstOccurAux (earlier : List String) : List String → List String
  | [] => []
  | x :: rest =>
      if x ∈ earlier then firstOccurAux (earlier ++ [x]) rest
      else x :: firstOccurAux (earlier ++ [x]) rest

/-- Spec-side definition for C10: the subsequence of first occurrences. -/
def firstOccurrences (l : List String) : List String := firstOccurAux [] l

/-- Spec-side definition for C8 (the claim's words, to be compared with the
probe predicates of the three variants): a probe succeeds iff it returns a
response with status below 400 and, when the body check is configured, a
non-empty (trimmed) body; errors always fail. -/
def claimProbeSuccess (bodyCheck : Bool) : HttpOutcome → Bool
  | .connErr => false
  | .ok s b =>
      decide (s < 400) && (!bodyCheck || decide (0 < (PC.trimSpace b).length))

/-! ### Helper lemmas about the deduplication loop -/

theorem mem_map_key_dedupByAux {α κ : Type} [DecidableEq κ] (key : α → κ)
    (l : List α) : ∀ (seen : List κ) (k : κ),
    k ∈ (dedupByAux key seen l).map key ↔ k ∈ l.map key ∧ k ∉ seen := by
  induction l with
  | nil => intro seen k; simp [dedupByAux]
  | cons x rest ih =>
    intro seen k
    by_cases hx : key x ∈ seen
    · simp only [dedupByAux, if_pos hx, ih, List.map_cons, List.mem_cons]
      constructor
      · rintro ⟨hk, hns⟩
        exact ⟨Or.inr hk, hns⟩
      · rintro ⟨hk | hk, hns⟩
        · exact absurd (hk ▸ hx) hns
        · exact ⟨hk, hns⟩
    · simp only [dedupByAux, if_neg hx, List.map_cons, List.mem_cons, ih,
        List.mem_cons]
      constructor
      · rintro (hk | ⟨hk, hns⟩)
        · exact ⟨Or.inl hk, hk ▸ hx⟩
        · exact ⟨Or.inr hk, fun hs => hns (Or.inr hs)⟩
      · rintro ⟨hk | hk, hns⟩
        · exact Or.inl hk
        · by_cases hkx : k = key x
          · exact Or.inl hkx
          · exact Or.inr ⟨hk, fun hs => hs.elim hkx hns⟩

theorem nodup_map_key_dedupByAux {α κ : Type} [DecidableEq κ] (key : α → κ)
    (l : List α) : ∀ seen : List κ, ((dedupByAux key seen l).map key).Nodup := by
  induction l with
  | nil => intro seen; simp [dedupByAux]
  | cons x rest ih =>
    intro seen
    by_cases hx : key x ∈ seen
    · simpa only [dedupByAux, if_pos hx] using ih seen
    · simp only [dedupByAux, if_neg hx, List.map_cons, List.nodup_cons]
      refine ⟨fun hmem => ?_, ih _⟩
      rw [mem_map_key_dedupByAux] at hmem
      exact hmem.2 (List.mem_cons_self _ _)

theorem dedupByAux_sublist {α κ : Type} [DecidableEq κ] (key : α → κ)
    (l : List α) : ∀ seen : List κ, List.Sublist (dedupByAux key seen l) l := by
  induction l with
  | nil => intro seen; simp [dedupByAux]
  | cons x rest ih =>
    intro seen
    by_cases hx : key x ∈ seen
    · simp only [dedupByAux, if_pos hx]
      exact (ih seen).trans (List.sublist_cons_self x rest)
    · simp only [dedupByAux, if_neg hx]
      exact (ih (key x :: seen)).cons₂ x

theorem dedupByAux_eq_self {α κ : Type} [DecidableEq κ] (key : α → κ)
    (l : List α) : ∀ seen : List κ, (l.map key).Nodup →
    (∀ x ∈ l, key x ∉ seen) → dedupByAux key seen l = l := by
  induction l with
  | nil => intro seen _ _; rfl
  | cons x rest ih =>
    intro seen hnd hni
    have hx : key x ∉ seen := hni x (List.mem_cons_self x rest)
    rw [List.map_cons, List.nodup_cons] at hnd
    simp only [dedupByAux, if_neg hx]
    congr 1
    refine ih (key x :: seen) hnd.2 fun y hy hmem => ?_
    rcases List.mem_cons.mp hmem with h | h
    · exact hnd.1 (h ▸ List.mem_map_of_mem key hy)
    · exact hni y (List.mem_cons_of_mem x hy) h

theorem dedupByAux_eq_firstOccurAux (l : List String) :
    ∀ seen earlier : List String, (∀ k, k ∈ seen ↔ k ∈ earlier) →
    dedupByAux id seen l = firstOccurAux earlier l := by
  induction l with
  | nil => intro seen earlier _; rfl
  | cons x rest ih =>
    intro seen earlier h
    by_cases hx : x ∈ earlier
    · have hx2 : id x ∈ seen := (h x).mpr hx
      simp only [dedupByAux, if_pos hx2, firstOccurAux, if_pos hx]
      refine ih seen (earlier ++ [x]) fun k => ?_
      rw [h k, List.mem_append, List.mem_singleton]
      exact ⟨fun hk => Or.inl hk, fun hk => hk.elim id fun he => he ▸ hx⟩
    · have hx2 : id x ∉ seen := fun hc => hx ((h x).mp hc)
      simp only [dedupByAux, if_neg hx2, firstOccurAux, if_neg hx]
      congr 1
      refine ih (id x :: seen) (earlier ++ [x]) fun k => ?_
      rw [List.mem_cons, h k, List.mem_append, List.mem_singleton, or_comm]
      simp [eq_comm]

theorem length_filter_add_length_filter_not {α : Type} (p : α → Bool)
    (l : List α) :
    (l.filter p).length + (l.filter (fun a => ! p a)).length = l.length := by
  induction l with
  | nil => rfl
  | cons x rest ih => cases hx : p x <;> simp [List.filter_cons, hx] <;> omega

theorem workerRun_eq (check : PC.Proxy → Bool) (jobs : List PC.Proxy) :
    ∀ v i : List PC.Proxy, PC.workerRun check jobs (v, i) =
      (v ++ jobs.filter check, i ++ jobs.filter (fun p => ! check p)) := by
  induction jobs with
  | nil => intro v i; simp [PC.workerRun]
  | cons j rest ih =>
    intro v i
    cases hj : check j <;>
      simp [PC.workerRun, hj, ih, List.filter_cons]



/-! ### Claim theorems -/

/-- Claim C1: the validator classifies a candidate Live iff the number of
successful probes among the K configured targets is at least the quorum
threshold T; in deep.go, K = 3 targets and T = 2 (`successCount >= 2`), so
outcomes (success, success, failure) yield Live and (success, failure,
failure) yield Dead; in the ProxyChecker variant, K = 2 and T = 1. -/
theorem quorum_decision_correct (probe : String → Bool) :
    (Deep.checkProxy probe = true ↔ 2 ≤ successCount probe Deep.checkTargets)
    ∧ (PC.checkProxy probe = true ↔ 1 ≤ successCount probe PC.testURLs)
    ∧ Deep.checkTargets.length = 3
    ∧ Deep.checkProxy (fun t => !(t == "http://google.com")) = true
    ∧ Deep.checkProxy (fun t => t == "http://example.com") = false := by
  refine ⟨?_, ?_, rfl, ?_, ?_⟩
  · simp [Deep.checkProxy]
  · simp [PC.checkProxy]
  · decide
  · decide

/-- Claim C2: each admitted candidate receives exactly one verdict, and the
Live and Dead sets partition the admitted candidates: the lengths add up to
the number of admitted candidates (in deep.go the dead count is computed as
the total minus the good count) and no address is in both sets. -/
theorem partition_completeness (check : PC.Proxy → Bool) (jobs : List PC.Proxy)
    (checkS : String → Bool) (l : List String) :
    (PC.validateProxies check jobs).1.length
        + (PC.validateProxies check jobs).2.length = jobs.length
    ∧ (∀ p, p ∈ (PC.validateProxies check jobs).1
          → p ∉ (PC.validateProxies check jobs).2)
    ∧ (Deep.checkProxiesConcurrently checkS l).length
        + (l.length - (Deep.checkProxiesConcurrently checkS l).length)
        = l.length
    ∧ (∀ x, x ∈ Deep.checkProxiesConcurrently checkS l
          → x ∉ l.filter (fun s => ! checkS s)) := by
  have hvp : PC.validateProxies check jobs
      = (jobs.filter check, jobs.filter (fun p => ! check p)) := by
    simpa [PC.validateProxies] using workerRun_eq check jobs [] []
  refine ⟨?_, ?_, ?_, ?_⟩
  · rw [hvp]
    exact length_filter_add_length_filter_not check jobs
  · rw [hvp]
    intro p hp hq
    have h1 := (List.mem_filter.mp hp).2
    have h2 := (List.mem_filter.mp hq).2
    rw [h1] at h2
    simp at h2
  · have hle := l.length_filter_le checkS
    unfold Deep.checkProxiesConcurrently
    omega
  · intro x hx hq
    have h1 := (List.mem_filter.mp hx).2
    have h2 := (List.mem_filter.mp hq).2
    rw [h1] at h2
    simp at h2

/-- Claim C3: deduplication admits each canonical address exactly once: the
output has no duplicates, every input address appears in the output, and
deduplication is idempotent — for deep.go's `deduplicateProxies` on address
strings and for ProxyChecker's `removeDuplicateProxies` keyed on `Full`. -/
theorem dedup_admits_each_address_once (l : List String) (ps : List PC.Proxy) :
    (Deep.deduplicateProxies l).Nodup
    ∧ (∀ x, x ∈ Deep.deduplicateProxies l ↔ x ∈ l)
    ∧ Deep.deduplicateProxies (Deep.deduplicateProxies l)
        = Deep.deduplicateProxies l
    ∧ ((PC.removeDuplicateProxies ps).map PC.Proxy.Full).Nodup
    ∧ (∀ k, k ∈ (PC.removeDuplicateProxies ps).map PC.Proxy.Full
          ↔ k ∈ ps.map PC.Proxy.Full)
    ∧ PC.removeDuplicateProxies (PC.removeDuplicateProxies ps)
        = PC.removeDuplicateProxies ps := by
  refine ⟨?_, ?_, ?_, ?_, ?_, ?_⟩
  · have h := nodup_map_key_dedupByAux id l []
    simpa [Deep.deduplicateProxies] using h
  · intro x
    have h := mem_map_key_dedupByAux id l [] x
    simpa [Deep.deduplicateProxies] using h
  · exact dedupByAux_eq_self id (Deep.deduplicateProxies l) []
      (by simpa using nodup_map_key_dedupByAux id l []) (by simp)
  · exact nodup_map_key_dedupByAux PC.Proxy.Full ps []
  · intro k
    have h := mem_map_key_dedupByAux PC.Proxy.Full ps [] k
    simpa [PC.removeDuplicateProxies] using h
  · exact dedupByAux_eq_self PC.Proxy.Full (PC.removeDuplicateProxies ps) []
      (nodup_map_key_dedupByAux PC.Proxy.Full ps []) (by simp)

/-- Counterexample to C10 as stated: the persisted live list does not reflect
discovery order.  With admitted candidates ["1.2.3.4:8080", "5.6.7.8:3128"]
(both alive), the schedule that completes the second candidate's check first
is legal (its completion order is a permutation of the admitted candidates),
and the live list the collector then builds differs from the
discovery-ordered list. -/
theorem collection_order_defies_discovery_order :
    List.Perm ["5.6.7.8:3128", "1.2.3.4:8080"]
      (Deep.deduplicateProxies ["1.2.3.4:8080", "5.6.7.8:3128"])
    ∧ Deep.collectByCompletion (fun _ => true)
        ["5.6.7.8:3128", "1.2.3.4:8080"]
        = ["5.6.7.8:3128", "1.2.3.4:8080"]
    ∧ Deep.collectByCompletion (fun _ => true)
        ["5.6.7.8:3128", "1.2.3.4:8080"]
        ≠ Deep.deduplicateProxies ["1.2.3.4:8080", "5.6.7.8:3128"] := by
  have hd : Deep.deduplicateProxies ["1.2.3.4:8080", "5.6.7.8:3128"]
      = ["1.2.3.4:8080", "5.6.7.8:3128"] := by decide
  refine ⟨?_, rfl, ?_⟩
  · rw [hd]
    exact List.Perm.swap "1.2.3.4:8080" "5.6.7.8:3128" []
  · rw [hd]
    decide

/-- Claim C10 as amended: the deduplication step itself preserves the
relative order of first occurrences — deep.go's `deduplicateProxies` returns
exactly the subsequence of the input made of the first occurrence of each
distinct address, and ProxyChecker's `removeDuplicateProxies` likewise
returns a subsequence of its input — but the persisted live list reflects
the scheduler's completion order, not discovery order: for any completion
order (any permutation of the admitted candidates) the collected live list
is a permutation of the live candidates, the same set with no ordering
guarantee. -/
theorem dedup_keeps_first_occurrence_order_collection_does_not
    (l : List String) (ps : List PC.Proxy) (check : String → Bool)
    (completion : List String) (hp : List.Perm completion l) :
    Deep.deduplicateProxies l = firstOccurrences l
    ∧ List.Sublist (Deep.deduplicateProxies l) l
    ∧ List.Sublist (PC.removeDuplicateProxies ps) ps
    ∧ List.Perm (Deep.collectByCompletion check completion)
        (l.filter check) := by
  refine ⟨?_, ?_, ?_, ?_⟩
  · exact dedupByAux_eq_firstOccurAux l [] [] (by simp)
  · exact dedupByAux_sublist id l []
  · exact dedupByAux_sublist PC.Proxy.Full ps []
  · exact hp.filter check

/-- Witness for amended C10: with the two admitted candidates completing in
swapped order, the collected live list is a permutation of the live set, and
deduplication equals the first-occurrence subsequence. -/
theorem dedup_keeps_first_occurrence_order_collection_does_not_witness :
    Deep.deduplicateProxies ["1.2.3.4:8080", "5.6.7.8:3128"]
      = firstOccurrences ["1.2.3.4:8080", "5.6.7.8:3128"]
    ∧ List.Perm
        (Deep.collectByCompletion (fun _ => true)
          ["5.6.7.8:3128", "1.2.3.4:8080"])
        (["1.2.3.4:8080", "5.6.7.8:3128"].filter (fun _ => true)) :=
  ⟨(dedup_keeps_first_occurrence_order_collection_does_not
      ["1.2.3.4:8080", "5.6.7.8:3128"] [] (fun _ => true)
      ["5.6.7.8:3128", "1.2.3.4:8080"]
      (List.Perm.swap "1.2.3.4:8080" "5.6.7.8:3128" [])).1,
   (dedup_keeps_first_occurrence_order_collection_does_not
      ["1.2.3.4:8080", "5.6.7.8:3128"] [] (fun _ => true)
      ["5.6.7.8:3128", "1.2.3.4:8080"]
      (List.Perm.swap "1.2.3.4:8080" "5.6.7.8:3128" [])).2.2.2⟩

/-- Claim C4: at no instant do more than W probe checks execute concurrently,
where W is the configured pool bound (200 for deep.go's semaphore channel,
150 workers in part_000, 100 workers in the ProxyChecker variant): in every
state reachable by the bounded pool's admission/completion steps, the number
of running checks is at most W. -/
theorem backpressure_concurrency_bound (W N : Nat) (s : PoolState)
    (h : PoolReachable W N s) :
    s.running ≤ W
    ∧ Deep.maxConcurrentChecks = 200
    ∧ Gemini.workerCount = 150
    ∧ PC.maxWorkers = 100 := by
  refine ⟨?_, rfl, rfl, rfl⟩
  induction h with
  | init => exact Nat.zero_le W
  | step hr hs ih =>
    cases hs with
    | acquire w r f hlt => exact hlt
    | release w r f => exact Nat.le_of_succ_le_succ (Nat.le_succ_of_le ih)

/-- Witness for C4: with pool bound W = 5 and N = 100 pending candidates, the
state after one admission is reachable and respects the bound. -/
theorem backpressure_concurrency_bound_witness :
    PoolReachable 5 100 ⟨99, 1, 0⟩ ∧ (PoolState.mk 99 1 0).running ≤ 5 :=
  ⟨PoolReachable.step PoolReachable.init (PoolStep.acquire 99 0 0 (by decide)),
   (backpressure_concurrency_bound 5 100 ⟨99, 1, 0⟩
      (PoolReachable.step PoolReachable.init
        (PoolStep.acquire 99 0 0 (by decide)))).1⟩

/-- Claim C5: a transiently failing source fetch is retried, with at most 3
attempts in total, with monotonically non-decreasing backoff delays between
attempts; a source succeeding on attempt 3 yields the same harvested
candidate set as one succeeding immediately, and the result depends only on
the first 3 attempts. -/
theorem retry_backoff_harvest_equivalence (parse : String → List PC.Proxy)
    (att att2 att3 : Nat → HttpOutcome) (body : String)
    (h0 : PC.fetchOk (att 0) = false) (h1 : PC.fetchOk (att 1) = false)
    (h2 : att 2 = HttpOutcome.ok 200 body)
    (h3 : att2 0 = HttpOutcome.ok 200 body)
    (e0 : att3 0 = att 0) (e1 : att3 1 = att 1) (e2 : att3 2 = att 2) :
    (∀ i j : Nat, i ≤ j → PC.backoffDelay i ≤ PC.backoffDelay j)
    ∧ PC.retryAttempts = 3
    ∧ PC.scrapeProxiesFromURL parse att = Except.ok (parse body)
    ∧ PC.scrapeProxiesFromURL parse att
        = PC.scrapeProxiesFromURL parse att2
    ∧ PC.scrapeProxiesFromURL parse att3
        = PC.scrapeProxiesFromURL parse att := by
  have hfin : PC.finalAttempt att = HttpOutcome.ok 200 body := by
    simp [PC.finalAttempt, h0, h1, h2]
  have hscr : PC.scrapeProxiesFromURL parse att = Except.ok (parse body) := by
    simp [PC.scrapeProxiesFromURL, hfin]
  refine ⟨fun i j hij => by simpa [PC.backoffDelay] using Nat.succ_le_succ hij,
    rfl, hscr, ?_, ?_⟩
  · have hfin2 : PC.finalAttempt att2 = HttpOutcome.ok 200 body := by
      simp [PC.finalAttempt, h3, PC.fetchOk]
    rw [hscr]
    simp [PC.scrapeProxiesFromURL, hfin2]
  · have : PC.finalAttempt att3 = PC.finalAttempt att := by
      simp [PC.finalAttempt, e0, e1, e2]
    simp [PC.scrapeProxiesFromURL, this]

/-- Witness for C5: concrete attempt schedules — two connection errors then a
200, versus an immediate 200 — produce the identical (empty) parse result. -/
theorem retry_backoff_harvest_equivalence_witness :
    PC.scrapeProxiesFromURL (fun _ => [])
        (fun i => if i < 2 then HttpOutcome.connErr else HttpOutcome.ok 200 "B")
      = Except.ok []
    ∧ PC.scrapeProxiesFromURL (fun _ => [])
          (fun i => if i < 2 then HttpOutcome.connErr else HttpOutcome.ok 200 "B")
        = PC.scrapeProxiesFromURL (fun _ => []) (fun _ => HttpOutcome.ok 200 "B") :=
  ⟨(retry_backoff_harvest_equivalence (fun _ => [])
      (fun i => if i < 2 then HttpOutcome.connErr else HttpOutcome.ok 200 "B")
      (fun _ => HttpOutcome.ok 200 "B")
      (fun i => if i < 2 then HttpOutcome.connErr else HttpOutcome.ok 200 "B")
      "B" rfl rfl rfl rfl rfl rfl rfl).2.2.1,
   (retry_backoff_harvest_equivalence (fun _ => [])
      (fun i => if i < 2 then HttpOutcome.connErr else HttpOutcome.ok 200 "B")
      (fun _ => HttpOutcome.ok 200 "B")
      (fun i => if i < 2 then HttpOutcome.connErr else HttpOutcome.ok 200 "B")
      "B" rfl rfl rfl rfl rfl rfl rfl).2.2.2.1⟩

/-- Claim C6 (code bug): `isValidPort`'s own comment and the spec require the
port to lie in [1, 65535], but the implementation only checks for 1-5 decimal
digits, so `parseProxies` emits candidates with ports 99999 and 0. -/
theorem port_range_not_enforced :
    PC.parseProxies [("1.2.3.4", "99999"), ("1.2.3.4", "0")] =
      [⟨"1.2.3.4", "99999", "1.2.3.4:99999"⟩, ⟨"1.2.3.4", "0", "1.2.3.4:0"⟩]
    ∧ PC.isValidPort "99999" = true
    ∧ 65535 < PC.decValue "99999"
    ∧ PC.isValidPort "0" = true
    ∧ PC.decValue "0" = 0 := by
  refine ⟨?_, ?_, ?_, ?_, ?_⟩ <;> decide

/-- Counterexample to C7 as stated: in deep.go an empty harvest does not
produce a non-zero completion status — main logs and plain-returns, so the
run completes with status 0 (no hard error). -/
theorem deep_empty_harvest_exits_zero :
    Deep.mainRun [] (fun _ => true) none
      = ⟨Deep.ExitOutcome.normal, false, none⟩
    ∧ Deep.isHardError (Deep.mainRun [] (fun _ => true) none).exit = false :=
  ⟨rfl, rfl⟩

/-- Claim C7 as amended: on an empty harvest nothing is validated and nothing
is persisted in either variant; the ProxyChecker variant terminates through
log.Fatal (non-zero status) — and that is its only hard error — while deep.go
logs the empty result and returns normally (zero status), never surfacing any
hard error. -/
theorem empty_harvest_error_behavior (check : String → Bool)
    (existing : Option String) (l : List String)
    (pcheck : PC.Proxy → Bool) (ps : List PC.Proxy) :
    Deep.mainRun [] check existing
      = ⟨Deep.ExitOutcome.normal, false, existing⟩
    ∧ Deep.isHardError (Deep.mainRun l check existing).exit = false
    ∧ (PC.mainRun [] pcheck).exit
        = Deep.ExitOutcome.fatalExit "Tidak ada proxy yang berhasil di-scrape"
    ∧ (PC.mainRun [] pcheck).checkedAny = false
    ∧ (PC.mainRun [] pcheck).validOut = none
    ∧ (PC.mainRun [] pcheck).invalidOut = none
    ∧ (Deep.isHardError (PC.mainRun ps pcheck).exit = true ↔ ps = []) := by
  refine ⟨rfl, ?_, rfl, rfl, rfl, rfl, ?_⟩
  · by_cases h : l.length = 0 <;> simp [Deep.mainRun, h, Deep.isHardError]
  · by_cases h : ps.length = 0
    · rw [List.length_eq_zero] at h
      simp [PC.mainRun, h, Deep.isHardError]
    · have hne : ps ≠ [] := fun hc => h (hc ▸ rfl)
      simp [PC.mainRun, h, Deep.isHardError, hne]

/-- Counterexample to C8 as stated: a probe response is not counted as a
success merely because its status is below 400 — a 302 redirect fails the
ProxyChecker and part_000 tests, and a 100 informational response fails
deep.go's test, although the claim's rule accepts all of them. -/
theorem probe_below_400_claim_false :
    PC.testProxyConnection (HttpOutcome.ok 302 "12.34.56.78") = false
    ∧ claimProbeSuccess true (HttpOutcome.ok 302 "12.34.56.78") = true
    ∧ Gemini.probeAccepts (HttpOutcome.ok 302 "x") = false
    ∧ claimProbeSuccess false (HttpOutcome.ok 302 "x") = true
    ∧ Deep.checkWithClient (HttpOutcome.ok 100 "") = false
    ∧ claimProbeSuccess false (HttpOutcome.ok 100 "") = true := by
  refine ⟨?_, ?_, ?_, ?_, ?_, ?_⟩ <;> decide

/-- Claim C8 as amended: every timeout or connection error fails the probe;
a response succeeds in deep.go iff its status is in [200, 400); in part_000
iff its status is exactly 200; and in the ProxyChecker variant iff its status
is exactly 200 and the trimmed response body is non-empty. -/
theorem probe_success_characterization (s : Nat) (b : String) :
    (Deep.checkWithClient (HttpOutcome.ok s b) = true ↔ 200 ≤ s ∧ s < 400)
    ∧ Deep.checkWithClient HttpOutcome.connErr = false
    ∧ (Gemini.probeAccepts (HttpOutcome.ok s b) = true ↔ s = 200)
    ∧ Gemini.probeAccepts HttpOutcome.connErr = false
    ∧ (PC.testProxyConnection (HttpOutcome.ok s b) = true
        ↔ s = 200 ∧ 0 < (PC.trimSpace b).length)
    ∧ PC.testProxyConnection HttpOutcome.connErr = false := by
  refine ⟨?_, rfl, ?_, rfl, ?_, rfl⟩ <;>
    simp [Deep.checkWithClient, Gemini.probeAccepts, PC.testProxyConnection]

/-- Claim C9: with an empty live set, deep.go's `saveProxiesToFile` performs
no write at all: a missing good_proxies.txt is not created and an existing
one keeps its previous content. -/
theorem save_empty_leaves_file_unchanged (existing : Option String) :
    Deep.saveProxiesToFile [] existing = existing
    ∧ Deep.saveProxiesToFile [] none = none
    ∧ Deep.saveProxiesToFile [] (some "old") = some "old" :=
  ⟨rfl, rfl, rfl⟩
